import Mathlib

/-!
Verification of the chart lifecycle classifier (`pkg/lifecycle/status.go`)
and the diff/patch wrapper (`pkg/diff/diff.go`) of charts-build-scripts.

The Go code is shallowly embedded: Go `map[string][]Asset` values become
association lists (`AssetMap`), and the effects of git, the filesystem and
the external `diff`/`patch` subprocesses become explicit environments of
oracles (`GitEnv`, `DiffEnv`) threaded through the translated functions.
Each definition carries a comment naming the Go function it translates.
-/

set_option autoImplicit false
set_option linter.unusedVariables false

namespace ChartsBuildScripts

/-- Go `lifecycle.Asset`: a chart version record.  Only its `Version`
field is read by the code under verification. -/
structure Asset where
  Version : String
  deriving DecidableEq, Repr

/-- Go `map[string][]Asset`, modelled as an association list from chart
name to its list of version records.  A Go map has unique keys; theorems
that need this assume `Nodup` of the key list. -/
abbrev AssetMap := List (String × List Asset)

namespace AssetMap

/-- Go map read `m[k]`: the value for `k`, or the nil slice (`[]`) when
`k` is absent.  Looks up the first entry, as a Go map with unique keys. -/
def find : AssetMap → String → List Asset
  | [], _ => []
  | (k', vs) :: rest, k => if k = k' then vs else find rest k

/-- Go `m[k] = append(m[k], v)`: extend the slice at key `k` with `v`,
inserting the key when absent. -/
def appendVal : AssetMap → String → Asset → AssetMap
  | [], k, v => [(k, [v])]
  | (k', vs) :: rest, k, v =>
    if k = k' then (k', vs ++ [v]) :: rest
    else (k', vs) :: appendVal rest k v

@[simp] theorem find_nil (k : String) : find [] k = [] := rfl

theorem find_appendVal (m : AssetMap) (k k' : String) (v : Asset) :
    find (appendVal m k v) k' = if k' = k then find m k' ++ [v] else find m k' := by
  induction m with
  | nil =>
    by_cases h : k' = k <;> simp [appendVal, find, h]
  | cons hd tl ih =>
    obtain ⟨k₀, vs₀⟩ := hd
    by_cases hk : k = k₀
    · subst hk
      by_cases hk' : k' = k <;> simp [appendVal, find, hk', ih]
    · by_cases hk' : k' = k₀
      · subst hk'
        have : ¬ k' = k := fun h => hk h.symm
        simp [appendVal, hk, find, this]
      · simp [appendVal, hk, find, hk', ih]

theorem mem_find_appendVal (m : AssetMap) (k k' : String) (v v' : Asset) :
    v' ∈ find (appendVal m k v) k' ↔ v' ∈ find m k' ∨ (k' = k ∧ v' = v) := by
  rw [find_appendVal]
  by_cases h : k' = k <;> simp [h]

/-- Under unique keys, membership through `find` coincides with
membership through some entry of the association list. -/
theorem find_eq_of_nodup (m : AssetMap) (hN : (m.map Prod.fst).Nodup)
    (k : String) (vs : List Asset) (hmem : (k, vs) ∈ m) : find m k = vs := by
  induction m with
  | nil => simp at hmem
  | cons hd tl ih =>
    obtain ⟨k₀, vs₀⟩ := hd
    simp only [List.map_cons, List.nodup_cons] at hN
    rcases List.mem_cons.mp hmem with h | h
    · obtain ⟨h1, h2⟩ := Prod.mk.injEq .. ▸ h
      simp [find, h1.symm, h2]
    · have hk : k ≠ k₀ := by
        intro hkk
        exact hN.1 (by simpa [hkk] using List.mem_map_of_mem Prod.fst h)
      simp [find, hk, ih hN.2 h]

theorem mem_find_iff_of_nodup (m : AssetMap) (hN : (m.map Prod.fst).Nodup)
    (k : String) (v : Asset) :
    v ∈ find m k ↔ ∃ vs, (k, vs) ∈ m ∧ v ∈ vs := by
  constructor
  · intro hv
    induction m with
    | nil => simp [find] at hv
    | cons hd tl ih =>
      obtain ⟨k₀, vs₀⟩ := hd
      simp only [List.map_cons, List.nodup_cons] at hN
      by_cases hk : k = k₀
      · subst hk
        simp [find] at hv
        exact ⟨vs₀, by simp, hv⟩
      · simp [find, hk] at hv
        obtain ⟨vs, h1, h2⟩ := ih hN.2 hv
        exact ⟨vs, by simp [h1], h2⟩
  · rintro ⟨vs, h1, h2⟩
    rw [find_eq_of_nodup m hN k vs h1]
    exact h2

end AssetMap

/-- Go `checkIfVersionIsReleased` (status.go:293-300): linear search of
`version` among the released version records. -/
def checkIfVersionIsReleased (version : String) : List Asset → Bool
  | [] => false
  | releasedVersion :: rest =>
    if version = releasedVersion.Version then true
    else checkIfVersionIsReleased version rest

theorem checkIfVersionIsReleased_eq_true_iff (version : String) (l : List Asset) :
    checkIfVersionIsReleased version l = true ↔ ∃ a ∈ l, version = a.Version := by
  induction l with
  | nil => simp [checkIfVersionIsReleased]
  | cons hd tl ih =>
    by_cases h : version = hd.Version <;>
      simp [checkIfVersionIsReleased, h, ih]

/-- The four bucket maps built by `compareReleasedAndDevAssets`
(status.go:250-253), with the Go local-variable names. -/
structure Buckets where
  releaseInLifecycle : AssetMap
  noReleaseOutLifecycle : AssetMap
  noReleaseInLifecycle : AssetMap
  releasedOutLifecycle : AssetMap
  deriving DecidableEq, Repr

/-- Inner loop of `compareReleasedAndDevAssets` (status.go:265-281): each
development version of chart `devAsset` is routed by the Go `switch` on
(`released`, `inLifecycle`) into exactly one of the four bucket maps.
`lc` is the oracle for `VR.CheckChartVersionForLifecycle`. -/
def classifyVersions (lc : String → Bool) (devAsset : String)
    (releasedVersions : List Asset) : List Asset → Buckets → Buckets
  | [], bs => bs
  | devVersion :: rest, bs =>
    let released := checkIfVersionIsReleased devVersion.Version releasedVersions
    let inLifecycle := lc devVersion.Version
    let bs' : Buckets :=
      match released, inLifecycle with
      | true, true =>
        { bs with releaseInLifecycle :=
            bs.releaseInLifecycle.appendVal devAsset devVersion }
      | false, false =>
        { bs with noReleaseOutLifecycle :=
            bs.noReleaseOutLifecycle.appendVal devAsset devVersion }
      | false, true =>
        { bs with noReleaseInLifecycle :=
            bs.noReleaseInLifecycle.appendVal devAsset devVersion }
      | true, false =>
        { bs with releasedOutLifecycle :=
            bs.releasedOutLifecycle.appendVal devAsset devVersion }
    classifyVersions lc devAsset releasedVersions rest bs'

/-- Outer loop of `compareReleasedAndDevAssets` (status.go:261-282): for
every chart of `developmentAssets`, classify its versions against the
released versions of the same chart. -/
def compareCharts (lc : String → Bool) (releasedAssets : AssetMap) :
    AssetMap → Buckets → Buckets
  | [], bs => bs
  | (devAsset, devVersions) :: rest, bs =>
    compareCharts lc releasedAssets rest
      (classifyVersions lc devAsset (releasedAssets.find devAsset) devVersions bs)

/-- Go `compareReleasedAndDevAssets` (status.go:248-289): builds the four
cross-branch bucket maps from empty initial maps. -/
def compareReleasedAndDevAssets (lc : String → Bool)
    (releasedAssets developmentAssets : AssetMap) : Buckets :=
  compareCharts lc releasedAssets developmentAssets ⟨[], [], [], []⟩

theorem classifyVersions_mem_releaseInLifecycle
    (lc : String → Bool) (a : String) (relV : List Asset) :
    ∀ (vers : List Asset) (bs : Buckets) (c : String) (v : Asset),
    v ∈ (classifyVersions lc a relV vers bs).releaseInLifecycle.find c ↔
      v ∈ bs.releaseInLifecycle.find c ∨
        (c = a ∧ v ∈ vers ∧
          checkIfVersionIsReleased v.Version relV = true ∧ lc v.Version = true) := by
  intro vers
  induction vers with
  | nil => intro bs c v; simp [classifyVersions]
  | cons v₀ rest ih =>
    intro bs c v
    rcases hrel : checkIfVersionIsReleased v₀.Version relV <;>
      rcases hlc : lc v₀.Version <;>
      simp only [classifyVersions, hrel, hlc] <;>
      rw [ih] <;>
      simp only [AssetMap.mem_find_appendVal, List.mem_cons] <;>
      aesop

theorem classifyVersions_mem_noReleaseOutLifecycle
    (lc : String → Bool) (a : String) (relV : List Asset) :
    ∀ (vers : List Asset) (bs : Buckets) (c : String) (v : Asset),
    v ∈ (classifyVersions lc a relV vers bs).noReleaseOutLifecycle.find c ↔
      v ∈ bs.noReleaseOutLifecycle.find c ∨
        (c = a ∧ v ∈ vers ∧
          checkIfVersionIsReleased v.Version relV = false ∧ lc v.Version = false) := by
  intro vers
  induction vers with
  | nil => intro bs c v; simp [classifyVersions]
  | cons v₀ rest ih =>
    intro bs c v
    rcases hrel : checkIfVersionIsReleased v₀.Version relV <;>
      rcases hlc : lc v₀.Version <;>
      simp only [classifyVersions, hrel, hlc] <;>
      rw [ih] <;>
      simp only [AssetMap.mem_find_appendVal, List.mem_cons] <;>
      aesop

theorem classifyVersions_mem_noReleaseInLifecycle
    (lc : String → Bool) (a : String) (relV : List Asset) :
    ∀ (vers : List Asset) (bs : Buckets) (c : String) (v : Asset),
    v ∈ (classifyVersions lc a relV vers bs).noReleaseInLifecycle.find c ↔
      v ∈ bs.noReleaseInLifecycle.find c ∨
        (c = a ∧ v ∈ vers ∧
          checkIfVersionIsReleased v.Version relV = false ∧ lc v.Version = true) := by
  intro vers
  induction vers with
  | nil => intro bs c v; simp [classifyVersions]
  | cons v₀ rest ih =>
    intro bs c v
    rcases hrel : checkIfVersionIsReleased v₀.Version relV <;>
      rcases hlc : lc v₀.Version <;>
      simp only [classifyVersions, hrel, hlc] <;>
      rw [ih] <;>
      simp only [AssetMap.mem_find_appendVal, List.mem_cons] <;>
      aesop

theorem classifyVersions_mem_releasedOutLifecycle
    (lc : String → Bool) (a : String) (relV : List Asset) :
    ∀ (vers : List Asset) (bs : Buckets) (c : String) (v : Asset),
    v ∈ (classifyVersions lc a relV vers bs).releasedOutLifecycle.find c ↔
      v ∈ bs.releasedOutLifecycle.find c ∨
        (c = a ∧ v ∈ vers ∧
          checkIfVersionIsReleased v.Version relV = true ∧ lc v.Version = false) := by
  intro vers
  induction vers with
  | nil => intro bs c v; simp [classifyVersions]
  | cons v₀ rest ih =>
    intro bs c v
    rcases hrel : checkIfVersionIsReleased v₀.Version relV <;>
      rcases hlc : lc v₀.Version <;>
      simp only [classifyVersions, hrel, hlc] <;>
      rw [ih] <;>
      simp only [AssetMap.mem_find_appendVal, List.mem_cons] <;>
      aesop

theorem compareCharts_mem_releaseInLifecycle
    (lc : String → Bool) (released : AssetMap) :
    ∀ (dev : AssetMap) (bs : Buckets) (c : String) (v : Asset),
    v ∈ (compareCharts lc released dev bs).releaseInLifecycle.find c ↔
      v ∈ bs.releaseInLifecycle.find c ∨
        ∃ vs, (c, vs) ∈ dev ∧ v ∈ vs ∧
          checkIfVersionIsReleased v.Version (released.find c) = true ∧
          lc v.Version = true := by
  intro dev
  induction dev with
  | nil => intro bs c v; simp [compareCharts]
  | cons hd rest ih =>
    obtain ⟨a, vs₀⟩ := hd
    intro bs c v
    simp only [compareCharts]
    rw [ih, classifyVersions_mem_releaseInLifecycle]
    simp only [List.mem_cons, Prod.mk.injEq]
    aesop

theorem compareCharts_mem_noReleaseOutLifecycle
    (lc : String → Bool) (released : AssetMap) :
    ∀ (dev : AssetMap) (bs : Buckets) (c : String) (v : Asset),
    v ∈ (compareCharts lc released dev bs).noReleaseOutLifecycle.find c ↔
      v ∈ bs.noReleaseOutLifecycle.find c ∨
        ∃ vs, (c, vs) ∈ dev ∧ v ∈ vs ∧
          checkIfVersionIsReleased v.Version (released.find c) = false ∧
          lc v.Version = false := by
  intro dev
  induction dev with
  | nil => intro bs c v; simp [compareCharts]
  | cons hd rest ih =>
    obtain ⟨a, vs₀⟩ := hd
    intro bs c v
    simp only [compareCharts]
    rw [ih, classifyVersions_mem_noReleaseOutLifecycle]
    simp only [List.mem_cons, Prod.mk.injEq]
    aesop

theorem compareCharts_mem_noReleaseInLifecycle
    (lc : String → Bool) (released : AssetMap) :
    ∀ (dev : AssetMap) (bs : Buckets) (c : String) (v : Asset),
    v ∈ (compareCharts lc released dev bs).noReleaseInLifecycle.find c ↔
      v ∈ bs.noReleaseInLifecycle.find c ∨
        ∃ vs, (c, vs) ∈ dev ∧ v ∈ vs ∧
          checkIfVersionIsReleased v.Version (released.find c) = false ∧
          lc v.Version = true := by
  intro dev
  induction dev with
  | nil => intro bs c v; simp [compareCharts]
  | cons hd rest ih =>
    obtain ⟨a, vs₀⟩ := hd
    intro bs c v
    simp only [compareCharts]
    rw [ih, classifyVersions_mem_noReleaseInLifecycle]
    simp only [List.mem_cons, Prod.mk.injEq]
    aesop

theorem compareCharts_mem_releasedOutLifecycle
    (lc : String → Bool) (released : AssetMap) :
    ∀ (dev : AssetMap) (bs : Buckets) (c : String) (v : Asset),
    v ∈ (compareCharts lc released dev bs).releasedOutLifecycle.find c ↔
      v ∈ bs.releasedOutLifecycle.find c ∨
        ∃ vs, (c, vs) ∈ dev ∧ v ∈ vs ∧
          checkIfVersionIsReleased v.Version (released.find c) = true ∧
          lc v.Version = false := by
  intro dev
  induction dev with
  | nil => intro bs c v; simp [compareCharts]
  | cons hd rest ih =>
    obtain ⟨a, vs₀⟩ := hd
    intro bs c v
    simp only [compareCharts]
    rw [ih, classifyVersions_mem_releasedOutLifecycle]
    simp only [List.mem_cons, Prod.mk.injEq]
    aesop

/-- C1: for every pair of Version Set Mappings handed to
`compareReleasedAndDevAssets` (with chart names unique in the development
mapping, as in a Go map), a pair (chart, version) lies in a bucket exactly
when the version is a development version of that chart and the bucket is
the one selected by crossing the released predicate with the lifecycle
predicate; in particular every development pair lands in exactly one of
the four buckets and no other pair appears anywhere. -/
theorem c1_cross_branch_partition
    (lc : String → Bool) (releasedAssets developmentAssets : AssetMap)
    (hN : (developmentAssets.map Prod.fst).Nodup) (c : String) (v : Asset) :
    (v ∈ (compareReleasedAndDevAssets lc releasedAssets developmentAssets).releaseInLifecycle.find c ↔
      v ∈ developmentAssets.find c ∧
        checkIfVersionIsReleased v.Version (releasedAssets.find c) = true ∧
        lc v.Version = true) ∧
    (v ∈ (compareReleasedAndDevAssets lc releasedAssets developmentAssets).noReleaseOutLifecycle.find c ↔
      v ∈ developmentAssets.find c ∧
        checkIfVersionIsReleased v.Version (releasedAssets.find c) = false ∧
        lc v.Version = false) ∧
    (v ∈ (compareReleasedAndDevAssets lc releasedAssets developmentAssets).noReleaseInLifecycle.find c ↔
      v ∈ developmentAssets.find c ∧
        checkIfVersionIsReleased v.Version (releasedAssets.find c) = false ∧
        lc v.Version = true) ∧
    (v ∈ (compareReleasedAndDevAssets lc releasedAssets developmentAssets).releasedOutLifecycle.find c ↔
      v ∈ developmentAssets.find c ∧
        checkIfVersionIsReleased v.Version (releasedAssets.find c) = true ∧
        lc v.Version = false) := by
  have hfind := AssetMap.mem_find_iff_of_nodup developmentAssets hN c v
  refine ⟨?_, ?_, ?_, ?_⟩
  · simp only [compareReleasedAndDevAssets]
    rw [compareCharts_mem_releaseInLifecycle, hfind]
    simp only [AssetMap.find_nil, List.not_mem_nil, false_or]
    aesop
  · simp only [compareReleasedAndDevAssets]
    rw [compareCharts_mem_noReleaseOutLifecycle, hfind]
    simp only [AssetMap.find_nil, List.not_mem_nil, false_or]
    aesop
  · simp only [compareReleasedAndDevAssets]
    rw [compareCharts_mem_noReleaseInLifecycle, hfind]
    simp only [AssetMap.find_nil, List.not_mem_nil, false_or]
    aesop
  · simp only [compareReleasedAndDevAssets]
    rw [compareCharts_mem_releasedOutLifecycle, hfind]
    simp only [AssetMap.find_nil, List.not_mem_nil, false_or]
    aesop

/-- Inputs of the scenario used to instantiate `c1_cross_branch_partition`. -/
def c1lc : String → Bool := fun v => ! (v == "0.5.0")

def c1released : AssetMap := [("nginx", [⟨"1.2.0"⟩, ⟨"0.5.0"⟩])]

def c1dev : AssetMap := [("nginx", [⟨"1.2.0"⟩, ⟨"1.3.0"⟩, ⟨"0.5.0"⟩])]

/-- Witness for `c1_cross_branch_partition` at a concrete input: version
1.3.0 of nginx, unreleased and in lifecycle, lands in the
not-released-in-lifecycle bucket and not in the released-in-lifecycle
bucket. -/
theorem c1_cross_branch_partition_witness :
    Asset.mk "1.3.0" ∈
      (compareReleasedAndDevAssets c1lc c1released c1dev).noReleaseInLifecycle.find "nginx" ∧
    Asset.mk "1.3.0" ∉
      (compareReleasedAndDevAssets c1lc c1released c1dev).releaseInLifecycle.find "nginx" := by
  have h := c1_cross_branch_partition c1lc c1released c1dev (by decide) "nginx" (Asset.mk "1.3.0")
  refine ⟨h.2.2.1.mpr ⟨by decide, by decide, by decide⟩, fun hmem => ?_⟩
  have hc := h.1.mp hmem
  revert hc; decide

/-- Inner loop of `separateReleaseFromForwardPort` (status.go:308-322).
For each version: first evaluate `VR.CheckChartVersionToRelease` (oracle
`toRelease`, which may fail — the Go `return err` aborts the whole
traversal, discarding the maps built so far); then drop the version when
`VR.CheckForRCVersion` (oracle `isRC`) holds; otherwise route it to the
to-be-released or to-be-forward-ported map. -/
def separateVersions (toRelease : String → Except String Bool)
    (isRC : String → Bool) (asset : String) :
    List Asset → AssetMap × AssetMap → Except String (AssetMap × AssetMap)
  | [], bs => .ok bs
  | version :: rest, bs =>
    match toRelease version.Version with
    | .error e => .error e
    | .ok toRel =>
      if isRC version.Version then
        separateVersions toRelease isRC asset rest bs
      else if toRel then
        separateVersions toRelease isRC asset rest
          (bs.1.appendVal asset version, bs.2)
      else
        separateVersions toRelease isRC asset rest
          (bs.1, bs.2.appendVal asset version)

/-- Outer loop of `separateReleaseFromForwardPort` (status.go:307-323). -/
def separateCharts (toRelease : String → Except String Bool)
    (isRC : String → Bool) :
    AssetMap → AssetMap × AssetMap → Except String (AssetMap × AssetMap)
  | [], bs => .ok bs
  | (asset, versions) :: rest, bs =>
    match separateVersions toRelease isRC asset versions bs with
    | .error e => .error e
    | .ok bs' => separateCharts toRelease isRC rest bs'

/-- Go `separateReleaseFromForwardPort` (status.go:303-329), as the pure
core over the `AssetsNotReleasedInLifecycle` mapping: on success it
returns the pair (assetsToBeReleased, assetsToBeForwardPorted); on the
first predicate error it aborts with that error. -/
def separateReleaseFromForwardPort (toRelease : String → Except String Bool)
    (isRC : String → Bool) (notReleasedInLifecycle : AssetMap) :
    Except String (AssetMap × AssetMap) :=
  separateCharts toRelease isRC notReleasedInLifecycle ([], [])

set_option maxHeartbeats 1000000 in
theorem separateVersions_ok_mem (toRelease : String → Except String Bool)
    (isRC : String → Bool) (a : String) :
    ∀ (vers : List Asset) (bs : AssetMap × AssetMap) (r f : AssetMap),
    separateVersions toRelease isRC a vers bs = .ok (r, f) →
    ∀ (c : String) (v : Asset),
    (v ∈ r.find c ↔ v ∈ bs.1.find c ∨
      (c = a ∧ v ∈ vers ∧ isRC v.Version = false ∧
        toRelease v.Version = .ok true)) ∧
    (v ∈ f.find c ↔ v ∈ bs.2.find c ∨
      (c = a ∧ v ∈ vers ∧ isRC v.Version = false ∧
        toRelease v.Version = .ok false)) := by
  intro vers
  induction vers with
  | nil =>
    intro bs r f h c v
    simp only [separateVersions, Except.ok.injEq] at h
    subst h
    simp
  | cons v₀ rest ih =>
    intro bs r f h c v
    rcases htr : toRelease v₀.Version with e | b
    · simp [separateVersions, htr] at h
    · cases b <;> rcases hrc : isRC v₀.Version <;>
        simp only [separateVersions, htr] at h <;>
        simp [hrc] at h <;>
        have hrec := ih _ r f h c v <;>
        refine ⟨?_, ?_⟩ <;>
        first
        | (rw [hrec.1]
           simp only [AssetMap.mem_find_appendVal, List.mem_cons]
           aesop)
        | (rw [hrec.2]
           simp only [AssetMap.mem_find_appendVal, List.mem_cons]
           aesop)

set_option maxHeartbeats 1000000 in
theorem separateCharts_ok_mem (toRelease : String → Except String Bool)
    (isRC : String → Bool) :
    ∀ (m : AssetMap) (bs : AssetMap × AssetMap) (r f : AssetMap),
    separateCharts toRelease isRC m bs = .ok (r, f) →
    ∀ (c : String) (v : Asset),
    (v ∈ r.find c ↔ v ∈ bs.1.find c ∨
      ∃ vs, (c, vs) ∈ m ∧ v ∈ vs ∧ isRC v.Version = false ∧
        toRelease v.Version = .ok true) ∧
    (v ∈ f.find c ↔ v ∈ bs.2.find c ∨
      ∃ vs, (c, vs) ∈ m ∧ v ∈ vs ∧ isRC v.Version = false ∧
        toRelease v.Version = .ok false) := by
  intro m
  induction m with
  | nil =>
    intro bs r f h c v
    simp only [separateCharts, Except.ok.injEq] at h
    subst h
    simp
  | cons hd rest ih =>
    obtain ⟨a, vs₀⟩ := hd
    intro bs r f h c v
    rcases hsv : separateVersions toRelease isRC a vs₀ bs with e | ⟨r', f'⟩
    · simp [separateCharts, hsv] at h
    · simp only [separateCharts, hsv] at h
      have h1 := separateVersions_ok_mem toRelease isRC a vs₀ bs r' f' hsv c v
      have h2 := ih (r', f') r f h c v
      constructor
      · rw [h2.1]
        simp only at h2 ⊢
        rw [h1.1]
        simp only [List.mem_cons, Prod.mk.injEq]
        aesop
      · rw [h2.2]
        simp only at h2 ⊢
        rw [h1.2]
        simp only [List.mem_cons, Prod.mk.injEq]
        aesop

/-- C6: whenever `separateReleaseFromForwardPort` succeeds on a
not-released-in-lifecycle mapping with unique chart names, a version
satisfying the release-candidate predicate appears in neither output
bucket regardless of the release-decision predicate's verdict on it, and
a non-RC version is in the to-be-released bucket exactly when the
release-decision predicate returned true on it and in the
to-be-forward-ported bucket exactly when it returned false. -/
theorem c6_rc_exclusion
    (toRelease : String → Except String Bool) (isRC : String → Bool)
    (m : AssetMap) (hN : (m.map Prod.fst).Nodup) (r f : AssetMap)
    (hok : separateReleaseFromForwardPort toRelease isRC m = .ok (r, f))
    (c : String) (v : Asset) :
    (isRC v.Version = true → v ∉ r.find c ∧ v ∉ f.find c) ∧
    (v ∈ r.find c ↔ v ∈ m.find c ∧ isRC v.Version = false ∧
      toRelease v.Version = .ok true) ∧
    (v ∈ f.find c ↔ v ∈ m.find c ∧ isRC v.Version = false ∧
      toRelease v.Version = .ok false) := by
  have h := separateCharts_ok_mem toRelease isRC m ([], []) r f hok c v
  have hfind := AssetMap.mem_find_iff_of_nodup m hN c v
  have hriff : v ∈ r.find c ↔ v ∈ m.find c ∧ isRC v.Version = false ∧
      toRelease v.Version = .ok true := by
    rw [h.1, hfind]
    simp only [AssetMap.find_nil, List.not_mem_nil, false_or]
    aesop
  have hfiff : v ∈ f.find c ↔ v ∈ m.find c ∧ isRC v.Version = false ∧
      toRelease v.Version = .ok false := by
    rw [h.2, hfind]
    simp only [AssetMap.find_nil, List.not_mem_nil, false_or]
    aesop
  refine ⟨fun hrc => ⟨fun hmem => ?_, fun hmem => ?_⟩, hriff, hfiff⟩
  · have := (hriff.mp hmem).2.1
    rw [hrc] at this
    exact Bool.true_eq_false.mp this
  · have := (hfiff.mp hmem).2.1
    rw [hrc] at this
    exact Bool.true_eq_false.mp this

/-- Inputs of the scenario used to instantiate `c6_rc_exclusion`. -/
def c6m : AssetMap := [("chart1", [⟨"1.0.0"⟩, ⟨"1.1.0-rc1"⟩, ⟨"0.9.0"⟩])]

def c6rc : String → Bool := fun v => v == "1.1.0-rc1"

def c6tr : String → Except String Bool := fun v => .ok (v == "1.0.0")

def c6r : AssetMap := [("chart1", [⟨"1.0.0"⟩])]

def c6f : AssetMap := [("chart1", [⟨"0.9.0"⟩])]

/-- Witness for `c6_rc_exclusion` at a concrete input: the RC version is
dropped from both buckets and the releasable version lands in the
to-be-released bucket. -/
theorem c6_rc_exclusion_witness :
    Asset.mk "1.1.0-rc1" ∉ c6r.find "chart1" ∧
    Asset.mk "1.1.0-rc1" ∉ c6f.find "chart1" ∧
    Asset.mk "1.0.0" ∈ c6r.find "chart1" := by
  have h1 := c6_rc_exclusion c6tr c6rc c6m (by decide) c6r c6f rfl
    "chart1" (Asset.mk "1.1.0-rc1")
  have h2 := c6_rc_exclusion c6tr c6rc c6m (by decide) c6r c6f rfl
    "chart1" (Asset.mk "1.0.0")
  exact ⟨(h1.1 (by decide)).1, (h1.1 (by decide)).2,
    h2.2.1.mpr ⟨by decide, by decide, rfl⟩⟩

/-- Inputs demonstrating the evaluation order inside
`separateReleaseFromForwardPort`: a mapping whose single version is a
release candidate, on which the release-decision predicate fails. -/
def c10m : AssetMap := [("chart1", [⟨"1.0.0-rc1"⟩])]

def c10rc : String → Bool := fun v => v == "1.0.0-rc1"

def c10trFail : String → Except String Bool := fun v =>
  if v == "1.0.0-rc1" then .error "malformed version: 1.0.0-rc1" else .ok true

def c10trOk : String → Except String Bool := fun _ => .ok true

/-- C10: `CheckChartVersionToRelease` is consulted before the RC
exclusion, so when its only failure is on an RC version the whole split
aborts with that error — even though with a non-failing predicate the
same RC version is simply dropped from both buckets. -/
theorem c10_release_predicate_evaluated_before_rc_check :
    c10rc "1.0.0-rc1" = true ∧
    separateReleaseFromForwardPort c10trFail c10rc c10m =
      .error "malformed version: 1.0.0-rc1" ∧
    separateReleaseFromForwardPort c10trOk c10rc c10m = .ok ([], []) :=
  ⟨rfl, rfl, rfl⟩

/-! ## pkg/diff: the patch engine (`diff.go`) -/

/-- Whitespace as seen by Go `fmt.Sscanf` within a single line: ASCII
whitespace other than newline (diff output is ASCII; the full Unicode
space class of Go is approximated by its ASCII part). -/
def goSpace (c : Char) : Bool :=
  c == ' ' || c == '\t' || c == '\r' || c == '\u000B' || c == '\u000C'

/-- Prop-level shape of the tail of a header line after the path token:
either nothing, or text starting with a whitespace character (such as
the tab GNU diff puts before the timestamp). -/
def WSlead (t : List Char) : Prop :=
  t = [] ∨ ∃ c t', t = c :: t' ∧ goSpace c = true

/-- Go `fmt.Sscanf(line, "--- %s", &timestampPath)` (and the `+++`
variant) applied to one scanner line (diff.go:117 and 120): the three
literal marker characters must be present; the format's space must then
consume at least one whitespace character; `%s` reads the maximal
nonempty run of non-whitespace characters and the rest of the line is
ignored.  `some tok` means the scan returned n = 1 with token `tok`. -/
def scanMarkerToken (m1 m2 m3 : Char) : List Char → Option (List Char)
  | c1 :: c2 :: c3 :: c :: cs =>
    if c1 = m1 ∧ c2 = m2 ∧ c3 = m3 ∧ goSpace c = true then
      let tok := (cs.dropWhile goSpace).takeWhile (fun ch => !goSpace ch)
      if tok = [] then none else some tok
    else none
  | _ => none

/-- Body of the scanner loop of `removeTimestamps` (diff.go:116-122):
try the `--- %s` scan and on success replace the line by
`fmt.Sprintf("--- %s", timestampPath)`; then do the same on the result
with `+++ %s`. -/
def processLine (line : List Char) : List Char :=
  let line1 :=
    match scanMarkerToken '-' '-' '-' line with
    | some tok => '-' :: '-' :: '-' :: ' ' :: tok
    | none => line
  match scanMarkerToken '+' '+' '+' line1 with
  | some tok => '+' :: '+' :: '+' :: ' ' :: tok
  | none => line1

/-- Split at every newline (each newline terminates a token). -/
def splitNL : List Char → List (List Char)
  | [] => [[]]
  | c :: cs =>
    if c = '\n' then [] :: splitNL cs
    else
      match splitNL cs with
      | [] => [[c]]
      | l :: ls => (c :: l) :: ls

/-- One trailing carriage return is stripped from a scanner line. -/
def dropCR (l : List Char) : List Char :=
  if l.getLast? = some '\r' then l.dropLast else l

/-- `bufio.Scanner` with the default `ScanLines` split (diff.go:114-115):
tokens are newline-separated lines, a trailing final newline does not
produce an extra empty token, and a trailing carriage return is dropped
from each line. -/
def scanLines (cs : List Char) : List (List Char) :=
  match cs with
  | [] => []
  | _ =>
    let ls := splitNL cs
    let ls := if ls.getLast? = some [] then ls.dropLast else ls
    ls.map dropCR

/-- Go `removeTimestamps` (diff.go:111-126): process the buffer line by
line and reassemble, appending a newline after every processed line. -/
def removeTimestamps (input : List Char) : List Char :=
  ((scanLines input).map (fun l => processLine l ++ ['\n'])).flatten

/-- Bool-valued list prefix test. -/
def isPrefixList : List Char → List Char → Bool
  | [], _ => true
  | _ :: _, [] => false
  | a :: as, b :: bs => a == b && isPrefixList as bs

/-- Bool-valued substring search over character lists. -/
def containsSubAux (needle : List Char) : List Char → Bool
  | [] => needle.isEmpty
  | c :: cs => isPrefixList needle (c :: cs) || containsSubAux needle cs

/-- Go `strings.Contains(s, sub)`. -/
def containsSubstring (s sub : String) : Bool :=
  containsSubAux sub.toList s.toList

/-- Go `checkDependencyPackage` (diff.go:17-31): run
`pathToCmd --version` (oracle `versionOutput`; `none` means the probe
command itself failed) and reject outputs mentioning Apple or FreeBSD. -/
def checkDependencyPackage (versionOutput : String → Option String)
    (pathToCmd : String) : Except String Unit :=
  match versionOutput pathToCmd with
  | none => .error "version probe failed"
  | some version =>
    if containsSubstring version "Apple" || containsSubstring version "FreeBSD" then
      .error ("detected Apple/FreeBSD version of " ++ pathToCmd ++
        ". This will lead to compatibility issues. Install GNU " ++ pathToCmd ++
        ": https://github.com/rancher/charts-build-scripts/issues/130")
    else .ok ()

/-- A subprocess invocation assembled for `exec.Command`: binary path,
arguments, working directory, and the file streamed to standard input
(if any). -/
structure Cmd where
  path : String
  args : List String
  dir : String
  stdinFile : Option String
  deriving DecidableEq, Repr

/-- Oracles for the external effects of `pkg/diff`: `exec.LookPath`
results, the `--version` probe output per tool path, the exit code and
captured standard output of the `diff` run, filesystem outcomes
(creating/writing the patch file, opening it for reading), path
resolution (`filesystem.GetAbsPath`), and success of the `patch` run. -/
structure DiffEnv where
  lookPathDiff : Option String
  lookPathPatch : Option String
  versionOutput : String → Option String
  diffExitCode : Nat
  diffOutput : List Char
  createFileOk : Bool
  openOk : Bool
  absPath : String → String
  patchRunOk : Bool

/-- The diff invocation assembled at diff.go:48-49 (run from the
repository root, output captured rather than streamed). -/
def generateDiffCmd (pathToDiffCmd srcPath dstPath root : String) : Cmd :=
  ⟨pathToDiffCmd, ["-uN", "-x *.tgz", "-x *.lock", srcPath, dstPath], root, none⟩

/-- Observable outcome of `GeneratePatch`: the returned bool, the
returned error (`none` = nil), and the bytes written to the patch file
(`none` = no file created).  File-creation and write failures are merged
into the single oracle `createFileOk`. -/
structure GenResult where
  patchWritten : Bool
  error : Option String
  fileWritten : Option (List Char)
  deriving DecidableEq, Repr

/-- Go `GeneratePatch` (diff.go:35-75): look up `diff`, check the
variant, run the diff command (its output and exit code arrive through
`env`); exit codes other than 0 and 1 are errors; an empty captured
output means no patch; otherwise the timestamp-stripped output is
persisted to `patchPath`. -/
def GeneratePatch (env : DiffEnv) (patchPath srcPath dstPath : String) : GenResult :=
  match env.lookPathDiff with
  | none => ⟨false, some "cannot generate patch file if GNU diff is not available", none⟩
  | some pathToDiffCmd =>
    match checkDependencyPackage env.versionOutput pathToDiffCmd with
    | .error e => ⟨false, some e, none⟩
    | .ok _ =>
      let buf := env.diffOutput
      if env.diffExitCode ≠ 0 ∧ env.diffExitCode ≠ 1 then
        ⟨false, some "unable to generate patch", none⟩
      else if buf.length = 0 then
        ⟨false, none, none⟩
      else if env.createFileOk then
        ⟨true, none, some (removeTimestamps buf)⟩
      else
        ⟨false, some "unable to write diff to file", none⟩

/-- Go `ApplyPatch` (diff.go:78-108): look up `patch`, check the
variant, open the patch file, and run `patch -E -p1` with the resolved
destination directory as working directory and the patch file on
standard input.  Returns the command that was run (when execution got
that far) together with the outcome. -/
def ApplyPatch (env : DiffEnv) (patchPath destDir : String) :
    Option Cmd × Except String Unit :=
  match env.lookPathPatch with
  | none => (none, .error "cannot generate patch file if GNU patch is not available")
  | some pathToPatchCmd =>
    match checkDependencyPackage env.versionOutput pathToPatchCmd with
    | .error e => (none, .error e)
    | .ok _ =>
      if env.openOk then
        let cmd : Cmd := ⟨pathToPatchCmd, ["-E", "-p1"], env.absPath destDir, some patchPath⟩
        (some cmd, if env.patchRunOk then .ok () else .error "unable to apply patch")
      else (none, .error "unable to open patch file")

/-- C4: whenever `ApplyPatch` reaches the external tool, the invocation
is exactly the located `patch` binary with arguments `-E -p1`, working
directory set to the resolved destination directory, and the patch file
streamed on standard input. -/
theorem c4_applypatch_invocation (env : DiffEnv) (patchPath destDir : String)
    (cmd : Cmd) (h : (ApplyPatch env patchPath destDir).1 = some cmd) :
    cmd.args = ["-E", "-p1"] ∧ cmd.dir = env.absPath destDir ∧
    cmd.stdinFile = some patchPath := by
  rcases hlp : env.lookPathPatch with _ | p
  · simp [ApplyPatch, hlp] at h
  · rcases hdep : checkDependencyPackage env.versionOutput p with e | u
    · simp [ApplyPatch, hlp, hdep] at h
    · rcases hopen : env.openOk
      · simp [ApplyPatch, hlp, hdep, hopen] at h
      · simp [ApplyPatch, hlp, hdep, hopen] at h
        subst h
        exact ⟨rfl, rfl, rfl⟩

/-- A diff/patch environment in which every effect succeeds, used to
instantiate the patch-engine theorems. -/
def allOkDiffEnv : DiffEnv :=
  ⟨some "/usr/bin/diff", some "/usr/bin/patch",
    fun _ => some "GNU patch 2.7.6", 1,
    ("--- a/f\t2024-01-01 10:00:00\n+++ b/f\t2024-01-01 10:05:00\n@@ -1 +1 @@\n-x\n+y\n").toList,
    true, true, fun d => "/repo/" ++ d, true⟩

/-- Witness for `c4_applypatch_invocation` at a concrete environment. -/
theorem c4_applypatch_invocation_witness :
    (⟨"/usr/bin/patch", ["-E", "-p1"], "/repo/charts/nginx", some "p.patch"⟩ : Cmd).args =
      ["-E", "-p1"] ∧
    (⟨"/usr/bin/patch", ["-E", "-p1"], "/repo/charts/nginx", some "p.patch"⟩ : Cmd).dir =
      allOkDiffEnv.absPath "charts/nginx" ∧
    (⟨"/usr/bin/patch", ["-E", "-p1"], "/repo/charts/nginx", some "p.patch"⟩ : Cmd).stdinFile =
      some "p.patch" :=
  c4_applypatch_invocation allOkDiffEnv "p.patch" "charts/nginx" _ rfl

/-- C5: with the diff binary located and its variant accepted: a run
reporting no differences (exit status 0, hence empty captured output)
returns patchWritten = false with no error and writes no file; a run
reporting differences (exit status 1, nonempty output) persists the
timestamp-stripped diff and returns patchWritten = true with no error;
any other exit status returns patchWritten = false with an error and
writes nothing. -/
theorem c5_generatepatch_exit_statuses (env : DiffEnv)
    (patchPath srcPath dstPath p : String)
    (hlp : env.lookPathDiff = some p)
    (hdep : checkDependencyPackage env.versionOutput p = .ok ()) :
    (env.diffExitCode = 0 → env.diffOutput = [] →
      GeneratePatch env patchPath srcPath dstPath = ⟨false, none, none⟩) ∧
    (env.diffExitCode = 1 → env.diffOutput ≠ [] → env.createFileOk = true →
      GeneratePatch env patchPath srcPath dstPath =
        ⟨true, none, some (removeTimestamps env.diffOutput)⟩) ∧
    (env.diffExitCode ≠ 0 → env.diffExitCode ≠ 1 →
      (GeneratePatch env patchPath srcPath dstPath).patchWritten = false ∧
      (GeneratePatch env patchPath srcPath dstPath).error.isSome = true ∧
      (GeneratePatch env patchPath srcPath dstPath).fileWritten = none) := by
  refine ⟨fun h0 hout => ?_, fun h1 hout hcr => ?_, fun h0 h1 => ?_⟩
  · simp [GeneratePatch, hlp, hdep, h0, hout]
  · simp [GeneratePatch, hlp, hdep, h1, hout, hcr, List.length_eq_zero]
  · simp [GeneratePatch, hlp, hdep, h0, h1]

/-- Witness for `c5_generatepatch_exit_statuses` at a concrete
environment: a diff run with exit status 1 and nonempty output persists
the stripped diff. -/
theorem c5_generatepatch_exit_statuses_witness :
    GeneratePatch allOkDiffEnv "p.patch" "a" "b" =
      ⟨true, none, some (removeTimestamps allOkDiffEnv.diffOutput)⟩ :=
  (c5_generatepatch_exit_statuses allOkDiffEnv "p.patch" "a" "b" "/usr/bin/diff"
    rfl rfl).2.1 rfl (by decide) rfl

/-- C9: the dependency check passes exactly when the probed version
output contains neither "Apple" nor "FreeBSD", and a hit produces the
compatibility error; the check is the one run by both `GeneratePatch`
and `ApplyPatch` on their located binaries. -/
theorem c9_dependency_variant_check (versionOutput : String → Option String)
    (pathToCmd version : String) (hprobe : versionOutput pathToCmd = some version) :
    (checkDependencyPackage versionOutput pathToCmd = .ok () ↔
      containsSubstring version "Apple" = false ∧
      containsSubstring version "FreeBSD" = false) ∧
    (containsSubstring version "Apple" = true ∨
        containsSubstring version "FreeBSD" = true →
      checkDependencyPackage versionOutput pathToCmd =
        .error ("detected Apple/FreeBSD version of " ++ pathToCmd ++
          ". This will lead to compatibility issues. Install GNU " ++ pathToCmd ++
          ": https://github.com/rancher/charts-build-scripts/issues/130")) := by
  unfold checkDependencyPackage
  rw [hprobe]
  rcases hA : containsSubstring version "Apple" <;>
    rcases hF : containsSubstring version "FreeBSD" <;>
    simp [hA, hF]

/-- Witness for `c9_dependency_variant_check`: the GNU diffutils banner
passes and the Apple banner is rejected. -/
theorem c9_dependency_variant_check_witness :
    checkDependencyPackage (fun _ => some "diff (GNU diffutils) 3.8") "diff" = .ok () ∧
    checkDependencyPackage (fun _ => some "Apple diff (based on FreeBSD diff)") "diff" =
      .error ("detected Apple/FreeBSD version of diff" ++
        ". This will lead to compatibility issues. Install GNU diff" ++
        ": https://github.com/rancher/charts-build-scripts/issues/130") := by
  constructor
  · exact (c9_dependency_variant_check (fun _ => some "diff (GNU diffutils) 3.8")
      "diff" "diff (GNU diffutils) 3.8" rfl).1.mpr ⟨by decide, by decide⟩
  · have h := (c9_dependency_variant_check
      (fun _ => some "Apple diff (based on FreeBSD diff)")
      "diff" "Apple diff (based on FreeBSD diff)" rfl).2 (Or.inl (by decide))
    simpa using h

theorem takeWhile_not_space (p t : List Char)
    (hpn : ∀ c ∈ p, goSpace c = false) (ht : WSlead t) :
    (p ++ t).takeWhile (fun ch => !goSpace ch) = p := by
  induction p with
  | nil =>
    rcases ht with rfl | ⟨c, t', rfl, hsp⟩
    · rfl
    · simp [List.takeWhile_cons, hsp]
  | cons ph p' ih =>
    have hph := hpn ph (by simp)
    simp [List.takeWhile_cons, hph, ih (fun c hc => hpn c (by simp [hc]))]

theorem scanMarkerToken_header (m1 m2 m3 : Char) (p t : List Char)
    (hp : p ≠ []) (hpn : ∀ c ∈ p, goSpace c = false) (ht : WSlead t) :
    scanMarkerToken m1 m2 m3 (m1 :: m2 :: m3 :: ' ' :: (p ++ t)) = some p := by
  obtain ⟨ph, p', rfl⟩ := List.exists_cons_of_ne_nil hp
  have hph := hpn ph (by simp)
  have hsp : goSpace ' ' = true := by decide
  have hdrop : List.dropWhile goSpace (ph :: (p' ++ t)) = ph :: (p' ++ t) := by
    simp [List.dropWhile_cons, hph]
  have htake : List.takeWhile (fun ch => !goSpace ch) (ph :: (p' ++ t)) = ph :: p' := by
    simpa using takeWhile_not_space (ph :: p') t hpn ht
  simp [scanMarkerToken, hsp, hdrop, htake]

theorem processLine_dashHeader (p t : List Char) (hp : p ≠ [])
    (hpn : ∀ c ∈ p, goSpace c = false) (ht : WSlead t) :
    processLine ('-' :: '-' :: '-' :: ' ' :: (p ++ t)) =
      '-' :: '-' :: '-' :: ' ' :: p := by
  unfold processLine
  rw [scanMarkerToken_header '-' '-' '-' p t hp hpn ht]
  simp [scanMarkerToken]

theorem processLine_plusHeader (p t : List Char) (hp : p ≠ [])
    (hpn : ∀ c ∈ p, goSpace c = false) (ht : WSlead t) :
    processLine ('+' :: '+' :: '+' :: ' ' :: (p ++ t)) =
      '+' :: '+' :: '+' :: ' ' :: p := by
  have hminus :
      scanMarkerToken '-' '-' '-' ('+' :: '+' :: '+' :: ' ' :: (p ++ t)) = none := by
    simp [scanMarkerToken]
  unfold processLine
  simp [hminus, scanMarkerToken_header '+' '+' '+' p t hp hpn ht]

/-- Two scanner lines that agree except possibly in the (whitespace-led)
suffix after the path token of a `--- `/`+++ ` header form. -/
def TimestampVariantLine (l₁ l₂ : List Char) : Prop :=
  l₁ = l₂ ∨
  ∃ (m : Char) (p t₁ t₂ : List Char),
    (m = '-' ∨ m = '+') ∧ p ≠ [] ∧ (∀ c ∈ p, goSpace c = false) ∧
    WSlead t₁ ∧ WSlead t₂ ∧
    l₁ = m :: m :: m :: ' ' :: (p ++ t₁) ∧
    l₂ = m :: m :: m :: ' ' :: (p ++ t₂)

theorem processLine_timestampVariant (l₁ l₂ : List Char)
    (h : TimestampVariantLine l₁ l₂) : processLine l₁ = processLine l₂ := by
  rcases h with rfl | ⟨m, p, t₁, t₂, hm, hp, hpn, ht₁, ht₂, rfl, rfl⟩
  · rfl
  · rcases hm with rfl | rfl
    · rw [processLine_dashHeader p t₁ hp hpn ht₁,
        processLine_dashHeader p t₂ hp hpn ht₂]
    · rw [processLine_plusHeader p t₁ hp hpn ht₁,
        processLine_plusHeader p t₂ hp hpn ht₂]

/-- `GeneratePatch`'s environment with the diff output replaced —
the only thing that changes between two runs of `diff` over identical
trees at different times. -/
def envWithDiffOutput (env : DiffEnv) (d : List Char) : DiffEnv :=
  { env with diffOutput := d }

/-- C7: two diff outputs whose scanner lines agree except in the
timestamp suffixes of `---`/`+++` header-shaped lines are mapped by
`removeTimestamps` to byte-identical text, and `GeneratePatch` therefore
persists byte-identical patch files for them. -/
theorem c7_patch_generation_deterministic (s₁ s₂ : List Char)
    (h : List.Forall₂ TimestampVariantLine (scanLines s₁) (scanLines s₂)) :
    removeTimestamps s₁ = removeTimestamps s₂ ∧
    ∀ (env : DiffEnv) (patchPath srcPath dstPath p : String),
      env.lookPathDiff = some p →
      checkDependencyPackage env.versionOutput p = .ok () →
      env.diffExitCode = 1 → env.createFileOk = true →
      s₁ ≠ [] → s₂ ≠ [] →
      (GeneratePatch (envWithDiffOutput env s₁) patchPath srcPath dstPath).fileWritten =
        (GeneratePatch (envWithDiffOutput env s₂) patchPath srcPath dstPath).fileWritten := by
  have hrt : removeTimestamps s₁ = removeTimestamps s₂ := by
    have key : ∀ (A B : List (List Char)), List.Forall₂ TimestampVariantLine A B →
        (A.map (fun l => processLine l ++ ['\n'])).flatten =
          (B.map (fun l => processLine l ++ ['\n'])).flatten := by
      intro A B hAB
      induction hAB with
      | nil => rfl
      | cons hl _ ih =>
        simp only [List.map_cons, List.flatten_cons]
        rw [processLine_timestampVariant _ _ hl, ih]
    exact key _ _ h
  refine ⟨hrt, fun env patchPath srcPath dstPath p hlp hdep hexit hcr h1 h2 => ?_⟩
  have gen : ∀ s : List Char, s ≠ [] →
      (GeneratePatch (envWithDiffOutput env s) patchPath srcPath dstPath).fileWritten =
        some (removeTimestamps s) := by
    intro s hs
    simp [GeneratePatch, envWithDiffOutput, hlp, hdep, hexit, hcr,
      List.length_eq_zero, hs]
  rw [gen s₁ h1, gen s₂ h2, hrt]

/-- The same header line produced by two diff runs at different times. -/
def c7diffA : List Char := ("--- charts/app.yaml\t2024-01-01 10:00:00\n").toList

def c7diffB : List Char := ("--- charts/app.yaml\t2025-06-06 12:00:00\n").toList

/-- Witness for `c7_patch_generation_deterministic`: the two header
lines differing only in the timestamp strip to identical patch text. -/
theorem c7_patch_generation_deterministic_witness :
    removeTimestamps c7diffA = removeTimestamps c7diffB := by
  refine (c7_patch_generation_deterministic c7diffA c7diffB ?_).1
  have h1 : scanLines c7diffA = [("--- charts/app.yaml\t2024-01-01 10:00:00").toList] := rfl
  have h2 : scanLines c7diffB = [("--- charts/app.yaml\t2025-06-06 12:00:00").toList] := rfl
  rw [h1, h2]
  refine List.Forall₂.cons (Or.inr ?_) List.Forall₂.nil
  exact ⟨'-', ("charts/app.yaml").toList, ("\t2024-01-01 10:00:00").toList,
    ("\t2025-06-06 12:00:00").toList, Or.inl rfl, by decide, by decide,
    Or.inr ⟨'\t', _, rfl, by decide⟩, Or.inr ⟨'\t', _, rfl, by decide⟩,
    by decide, by decide⟩

/-- A five-line unified diff whose fourth scanner line is a hunk-body
deletion line (the deleted source line is `-- foo bar`), not one of the
two file-header lines. -/
def c8input : List Char :=
  ("--- a/f\t2024-01-01\n+++ b/f\t2024-01-01\n@@ -1,2 +1,2 @@\n--- foo bar\n+zzz\n").toList

/-- C8 counterexample: `removeTimestamps` rewrites the hunk-body line at
index 3, `--- foo bar`, to `--- foo`, so a line other than the two
unified-diff header lines is not written to the patch file unchanged. -/
theorem c8_counterexample :
    (scanLines c8input).get? 3 = some (("--- foo bar").toList) ∧
    (scanLines (removeTimestamps c8input)).get? 3 = some (("--- foo").toList) := by
  constructor <;> decide

/-- C8 amended: the timestamp-stripping step rewrites exactly the lines
matching the `--- %s` / `+++ %s` scan pattern — truncating each to the
marker and the path token — and leaves every line matching neither
pattern unchanged; hunk-body lines that happen to match the pattern are
truncated as well. -/
theorem c8_scan_matched_lines_truncated :
    (∀ line : List Char,
      scanMarkerToken '-' '-' '-' line = none →
      scanMarkerToken '+' '+' '+' line = none →
      processLine line = line) ∧
    (∀ p t : List Char, p ≠ [] → (∀ c ∈ p, goSpace c = false) → WSlead t →
      processLine ('-' :: '-' :: '-' :: ' ' :: (p ++ t)) =
        '-' :: '-' :: '-' :: ' ' :: p ∧
      processLine ('+' :: '+' :: '+' :: ' ' :: (p ++ t)) =
        '+' :: '+' :: '+' :: ' ' :: p) := by
  constructor
  · intro line h1 h2
    simp [processLine, h1, h2]
  · intro p t hp hpn ht
    exact ⟨processLine_dashHeader p t hp hpn ht,
      processLine_plusHeader p t hp hpn ht⟩

/-- Witness for `c8_scan_matched_lines_truncated`: a hunk-count line is
left unchanged, and a header-shaped body line is truncated. -/
theorem c8_scan_matched_lines_truncated_witness :
    processLine (("@@ -1,2 +1,2 @@").toList) = ("@@ -1,2 +1,2 @@").toList ∧
    processLine ('-' :: '-' :: '-' :: ' ' :: (("foo").toList ++ (" bar").toList)) =
      '-' :: '-' :: '-' :: ' ' :: ("foo").toList := by
  constructor
  · exact c8_scan_matched_lines_truncated.1 _ (by decide) (by decide)
  · exact (c8_scan_matched_lines_truncated.2 (("foo").toList) ((" bar").toList)
      (by decide) (by decide) (Or.inr ⟨' ', _, rfl, by decide⟩)).1

/-! ## pkg/lifecycle: the status run (`status.go`) -/

/-- Oracles for the git and index effects of a status run: whether
`git.OpenGitRepo` succeeds, whether each branch operation succeeds, and
the asset map read from `index.yaml` as a function of the branch
currently checked out (`none`: reading or parsing the index fails). -/
structure GitEnv where
  openRepoOk : Bool
  fetchPullOk : String → Bool
  fetchCheckoutOk : String → Bool
  checkoutOk : String → Bool
  indexOf : String → Option AssetMap

/-- Go `git.FetchAndPullBranch(b)`: on success the working tree stays on
its current branch (it pulls the branch it is already on). -/
def fetchAndPullBranch (env : GitEnv) (st b : String) : String × Except String Unit :=
  if env.fetchPullOk b then (st, .ok ())
  else (st, .error ("failed to fetch and pull branch " ++ b))

/-- Go `git.FetchAndCheckoutBranch(b)`: on success the working tree is
on `b`; on failure it stays where it was. -/
def fetchAndCheckoutBranch (env : GitEnv) (st b : String) : String × Except String Unit :=
  if env.fetchCheckoutOk b then (b, .ok ())
  else (st, .error ("failed to fetch and checkout branch " ++ b))

/-- Go `git.CheckoutBranch(b)`. -/
def checkoutBranch (env : GitEnv) (st b : String) : String × Except String Unit :=
  if env.checkoutOk b then (b, .ok ())
  else (st, .error ("failed to checkout branch " ++ b))

/-- The externally supplied data of `lifecycle.Dependencies` used by the
status computation: the current-branch asset versions map, the three
version-rules predicates (as oracles), the configured branch
(`ld.Git.Branch`) and the production/development branch names. -/
structure Dependencies where
  AssetsVersionsMap : AssetMap
  CheckChartVersionForLifecycle : String → Bool
  CheckChartVersionToRelease : String → Except String Bool
  CheckForRCVersion : String → Bool
  cfgBranch : String
  prodBranch : String
  devBranch : String

/-- Go `lifecycle.Status` (status.go:13-24): the eight result mappings.
A `none` field is a Go nil map — the field was never assigned. -/
structure Status where
  AssetsInLifecycleCurrentBranch : Option AssetMap
  AssetsOutLifecycleCurrentBranch : Option AssetMap
  AssetsReleasedInLifecycle : Option AssetMap
  AssetsNotReleasedOutLifecycle : Option AssetMap
  AssetsNotReleasedInLifecycle : Option AssetMap
  AssetsReleasedOutLifecycle : Option AssetMap
  AssetsToBeReleased : Option AssetMap
  AssetsToBeForwardPorted : Option AssetMap
  deriving DecidableEq, Repr

/-- The zero `Status` built at status.go:32 (all maps nil). -/
def emptyStatus : Status := ⟨none, none, none, none, none, none, none, none⟩

/-- Inner loop of `listCurrentAssetsVersionsOnTheCurrentBranch`
(status.go:162-169). -/
def partitionVersionsByLifecycle (lc : String → Bool) (asset : String) :
    List Asset → AssetMap × AssetMap → AssetMap × AssetMap
  | [], acc => acc
  | version :: rest, acc =>
    if lc version.Version then
      partitionVersionsByLifecycle lc asset rest (acc.1.appendVal asset version, acc.2)
    else
      partitionVersionsByLifecycle lc asset rest (acc.1, acc.2.appendVal asset version)

/-- Outer loop of `listCurrentAssetsVersionsOnTheCurrentBranch`
(status.go:161-170). -/
def listCurrentAssetsLoop (lc : String → Bool) :
    AssetMap → AssetMap × AssetMap → AssetMap × AssetMap
  | [], acc => acc
  | (asset, versions) :: rest, acc =>
    listCurrentAssetsLoop lc rest (partitionVersionsByLifecycle lc asset versions acc)

/-- Go `listCurrentAssetsVersionsOnTheCurrentBranch` (status.go:157-176):
partition the configured assets-versions map by the lifecycle predicate
into the two current-branch fields. -/
def listCurrentAssetsVersionsOnTheCurrentBranch (d : Dependencies) (s : Status) : Status :=
  let p := listCurrentAssetsLoop d.CheckChartVersionForLifecycle d.AssetsVersionsMap ([], [])
  { s with AssetsInLifecycleCurrentBranch := some p.1,
           AssetsOutLifecycleCurrentBranch := some p.2 }

/-- Go `getProdAndDevAssetsFromGit` (status.go:206-244): fetch+pull the
production branch when it is the configured branch, else fetch+checkout
it; read the helm index; fetch+checkout the development branch; read the
index again.  The index is always read at the same repository path, so
its content is a function of the branch currently checked out. -/
def getProdAndDevAssetsFromGit (env : GitEnv)
    (cfgBranch prodBranch devBranch st : String) :
    String × Except String (AssetMap × AssetMap) :=
  let step1 :=
    if cfgBranch = prodBranch then fetchAndPullBranch env st prodBranch
    else fetchAndCheckoutBranch env st prodBranch
  match step1 with
  | (st1, .error e) => (st1, .error e)
  | (st1, .ok _) =>
    match env.indexOf st1 with
    | none => (st1, .error "failed to read the helm index")
    | some releasedAssets =>
      match fetchAndCheckoutBranch env st1 devBranch with
      | (st2, .error e) => (st2, .error e)
      | (st2, .ok _) =>
        match env.indexOf st2 with
        | none => (st2, .error "failed to read the helm index")
        | some devAssets => (st2, .ok (releasedAssets, devAssets))

/-- Go `listProdAndDevAssets` (status.go:182-202): open the repository,
remember the current branch, fetch the production/development asset
maps, store the four comparison buckets in the status, and finally check
out the remembered branch again.  Note the early `return err` when
`getProdAndDevAssetsFromGit` fails: no restoring checkout happens on
that path. -/
def listProdAndDevAssets (d : Dependencies) (env : GitEnv) (s : Status)
    (st : String) : String × Status × Except String Unit :=
  if env.openRepoOk then
    let oldCurrentBranch := st
    match getProdAndDevAssetsFromGit env d.cfgBranch d.prodBranch d.devBranch st with
    | (st1, .error e) => (st1, s, .error e)
    | (st1, .ok (releasedAssets, devAssets)) =>
      let bs := compareReleasedAndDevAssets d.CheckChartVersionForLifecycle
        releasedAssets devAssets
      let s := { s with
        AssetsReleasedInLifecycle := some bs.releaseInLifecycle,
        AssetsNotReleasedOutLifecycle := some bs.noReleaseOutLifecycle,
        AssetsNotReleasedInLifecycle := some bs.noReleaseInLifecycle,
        AssetsReleasedOutLifecycle := some bs.releasedOutLifecycle }
      match checkoutBranch env st1 oldCurrentBranch with
      | (st2, r) => (st2, s, r)
  else (st, s, .error "failed to open git repository")

/-- The `separateReleaseFromForwardPort` method on `Status`
(status.go:303-329): run the pure split on the
`AssetsNotReleasedInLifecycle` field (a nil field iterates as an empty
map) and assign the two result fields only on success. -/
def statusSeparateReleaseFromForwardPort (d : Dependencies) (s : Status) :
    Status × Except String Unit :=
  match separateReleaseFromForwardPort d.CheckChartVersionToRelease
      d.CheckForRCVersion (s.AssetsNotReleasedInLifecycle.getD []) with
  | .error e => (s, .error e)
  | .ok (r, f) =>
    ({ s with AssetsToBeReleased := some r, AssetsToBeForwardPorted := some f }, .ok ())

/-- Go `getStatus` (status.go:31-48): current-branch listing, then the
cross-branch comparison, then the release/forward-port split; each
failing step returns the status built so far alongside the error. -/
def getStatus (d : Dependencies) (env : GitEnv) (st : String) :
    String × Status × Except String Unit :=
  let status := listCurrentAssetsVersionsOnTheCurrentBranch d emptyStatus
  match listProdAndDevAssets d env status st with
  | (st1, s1, .error e) => (st1, s1, .error e)
  | (st1, s1, .ok _) =>
    match statusSeparateReleaseFromForwardPort d s1 with
    | (s2, .error e) => (st1, s2, .error e)
    | (s2, .ok _) => (st1, s2, .ok ())

/-- The chart filter of `CheckLifecycleStatusAndSave` (status.go:94-103):
every field is replaced by a single-key map for the chart. -/
def filterStatusByChart (s : Status) (chart : String) : Status :=
  ⟨s.AssetsInLifecycleCurrentBranch.map (fun m => [(chart, m.find chart)]),
   s.AssetsOutLifecycleCurrentBranch.map (fun m => [(chart, m.find chart)]),
   s.AssetsReleasedInLifecycle.map (fun m => [(chart, m.find chart)]),
   s.AssetsNotReleasedOutLifecycle.map (fun m => [(chart, m.find chart)]),
   s.AssetsNotReleasedInLifecycle.map (fun m => [(chart, m.find chart)]),
   s.AssetsReleasedOutLifecycle.map (fun m => [(chart, m.find chart)]),
   s.AssetsToBeReleased.map (fun m => [(chart, m.find chart)]),
   s.AssetsToBeForwardPorted.map (fun m => [(chart, m.find chart)])⟩

/-- Go `CheckLifecycleStatusAndSave` (status.go:77-152): compute the
status — returning `nil` (modelled `none`) with the error when
`getStatus` fails — then create the log files (`createLogsOk`), filter
by chart, write the logs, and persist the state (`initStateOk`); those
later failures return the status alongside the error. -/
def CheckLifecycleStatusAndSave (d : Dependencies) (env : GitEnv)
    (createLogsOk initStateOk : Bool) (chart : String) (st : String) :
    String × Option Status × Except String Unit :=
  match getStatus d env st with
  | (st1, _, .error e) => (st1, none, .error e)
  | (st1, status, .ok _) =>
    if createLogsOk = false then (st1, some status, .error "failed to create log files")
    else
      let status := if chart ≠ "" then filterStatusByChart status chart else status
      if initStateOk = false then (st1, some status, .error "failed to save state")
      else (st1, some status, .ok ())

/-- Environment refuting C2: every git operation succeeds but the helm
index cannot be read on any branch. -/
def c2env : GitEnv := ⟨true, fun _ => true, fun _ => true, fun _ => true, fun _ => none⟩

/-- Dependencies of the C2 scenario: configured on `main`, production
branch `release-2.9`, development branch `dev-2.9`. -/
def c2d : Dependencies :=
  ⟨[], fun _ => true, fun _ => .ok true, fun _ => false,
    "main", "release-2.9", "dev-2.9"⟩

/-- C2 counterexample: a status run started on `main` in which no
branch-checkout step fails (all checkout oracles succeed) but reading
the version index fails.  `listProdAndDevAssets` returns the index
error with the repository left on the production branch `release-2.9`;
it is not checked out back to `main`. -/
theorem c2_counterexample :
    listProdAndDevAssets c2d c2env emptyStatus "main" =
      ("release-2.9", emptyStatus, .error "failed to read the helm index") ∧
    c2env.fetchPullOk "release-2.9" = true ∧
    c2env.fetchCheckoutOk "release-2.9" = true ∧
    c2env.fetchCheckoutOk "dev-2.9" = true ∧
    c2env.checkoutOk "main" = true :=
  ⟨rfl, rfl, rfl, rfl, rfl⟩

/-- C2 amended: the original branch is restored provided the whole
branch-and-index collection (`getProdAndDevAssetsFromGit`: the
production/development fetch-checkout steps and both index reads)
succeeds and the restoring checkout of the original branch succeeds;
when an index read fails mid-sequence the run ends on whatever branch
that step left checked out. -/
theorem c2_branch_restoration_amended (d : Dependencies) (env : GitEnv)
    (s : Status) (st st1 : String) (rel dev : AssetMap)
    (hopen : env.openRepoOk = true)
    (hget : getProdAndDevAssetsFromGit env d.cfgBranch d.prodBranch d.devBranch st =
      (st1, .ok (rel, dev)))
    (hck : env.checkoutOk st = true) :
    (listProdAndDevAssets d env s st).1 = st := by
  simp [listProdAndDevAssets, hopen, hget, checkoutBranch, hck]

/-- Environment for the restoration witness: all git operations succeed
and every branch has an empty index. -/
def c2wenv : GitEnv := ⟨true, fun _ => true, fun _ => true, fun _ => true, fun _ => some []⟩

/-- Witness for `c2_branch_restoration_amended`: with all steps
succeeding, a run started on `main` ends back on `main`. -/
theorem c2_branch_restoration_amended_witness :
    (listProdAndDevAssets c2d c2wenv emptyStatus "main").1 = "main" :=
  c2_branch_restoration_amended c2d c2wenv emptyStatus "main" "dev-2.9" [] []
    rfl rfl rfl

theorem listProdAndDevAssets_preserves_fields (d : Dependencies) (env : GitEnv)
    (s : Status) (st : String) :
    (listProdAndDevAssets d env s st).2.1.AssetsInLifecycleCurrentBranch =
      s.AssetsInLifecycleCurrentBranch ∧
    (listProdAndDevAssets d env s st).2.1.AssetsOutLifecycleCurrentBranch =
      s.AssetsOutLifecycleCurrentBranch ∧
    (listProdAndDevAssets d env s st).2.1.AssetsToBeReleased = s.AssetsToBeReleased ∧
    (listProdAndDevAssets d env s st).2.1.AssetsToBeForwardPorted =
      s.AssetsToBeForwardPorted := by
  unfold listProdAndDevAssets
  rcases ho : env.openRepoOk
  · simp [ho]
  · rcases hg : getProdAndDevAssetsFromGit env d.cfgBranch d.prodBranch d.devBranch st
      with ⟨st1, r⟩
    rcases r with e | ⟨rel, dev⟩
    · simp [ho, hg]
    · rcases hc : checkoutBranch env st1 st with ⟨st2, r2⟩
      simp [ho, hg, hc]

/-- C3 amended, part of the proof: `getStatus` always returns a status in
which the current-branch buckets are populated and the two split buckets
are unassigned whenever it returns an error, the split step leaves the
status untouched when it fails, and `CheckLifecycleStatusAndSave`
discards the partial status — returning `nil` — whenever `getStatus`
errors (it returns the status alongside the error only for log-creation
and state-persistence failures). -/
theorem c3_partial_results_on_error (d : Dependencies) (env : GitEnv) :
    (∀ (createLogsOk initStateOk : Bool) (chart st st1 : String)
        (s : Status) (e : String),
      getStatus d env st = (st1, s, .error e) →
      CheckLifecycleStatusAndSave d env createLogsOk initStateOk chart st =
        (st1, none, .error e)) ∧
    (∀ (s : Status) (e : String),
      (statusSeparateReleaseFromForwardPort d s).2 = .error e →
      (statusSeparateReleaseFromForwardPort d s).1 = s) ∧
    (∀ (st st1 : String) (s : Status) (e : String),
      getStatus d env st = (st1, s, .error e) →
      s.AssetsInLifecycleCurrentBranch.isSome = true ∧
      s.AssetsOutLifecycleCurrentBranch.isSome = true ∧
      s.AssetsToBeReleased = none ∧
      s.AssetsToBeForwardPorted = none) := by
  refine ⟨fun createLogsOk initStateOk chart st st1 s e h => ?_, fun s e h => ?_,
    fun st st1 s e h => ?_⟩
  · simp [CheckLifecycleStatusAndSave, h]
  · rcases hsep : separateReleaseFromForwardPort d.CheckChartVersionToRelease
        d.CheckForRCVersion (s.AssetsNotReleasedInLifecycle.getD []) with e' | ⟨r, f⟩
    · simp [statusSeparateReleaseFromForwardPort, hsep]
    · simp [statusSeparateReleaseFromForwardPort, hsep] at h
  · have hfields := listProdAndDevAssets_preserves_fields d env
      (listCurrentAssetsVersionsOnTheCurrentBranch d emptyStatus) st
    have hbase :
        (listCurrentAssetsVersionsOnTheCurrentBranch d emptyStatus).AssetsInLifecycleCurrentBranch.isSome = true ∧
        (listCurrentAssetsVersionsOnTheCurrentBranch d emptyStatus).AssetsOutLifecycleCurrentBranch.isSome = true ∧
        (listCurrentAssetsVersionsOnTheCurrentBranch d emptyStatus).AssetsToBeReleased = none ∧
        (listCurrentAssetsVersionsOnTheCurrentBranch d emptyStatus).AssetsToBeForwardPorted = none := by
      simp [listCurrentAssetsVersionsOnTheCurrentBranch, emptyStatus]
    simp only [getStatus] at h
    rcases hl : listProdAndDevAssets d env
        (listCurrentAssetsVersionsOnTheCurrentBranch d emptyStatus) st
      with ⟨st1', s1, r1⟩
    rw [hl] at h hfields
    simp only at hfields
    rcases r1 with e1 | u
    · simp only [Prod.mk.injEq] at h
      obtain ⟨h1, h2, h3⟩ := h
      subst h2
      exact ⟨by rw [hfields.1]; exact hbase.1, by rw [hfields.2.1]; exact hbase.2.1,
        by rw [hfields.2.2.1]; exact hbase.2.2.1,
        by rw [hfields.2.2.2]; exact hbase.2.2.2⟩
    · simp only at h
      rcases hsep : statusSeparateReleaseFromForwardPort d s1 with ⟨s2, r2⟩
      rw [hsep] at h
      rcases r2 with e2 | u2
      · simp only [Prod.mk.injEq] at h
        obtain ⟨h1, h2, h3⟩ := h
        subst h2
        have hs2 : s2 = s1 := by
          rcases hsep2 : separateReleaseFromForwardPort d.CheckChartVersionToRelease
              d.CheckForRCVersion (s1.AssetsNotReleasedInLifecycle.getD [])
            with e' | ⟨r, f⟩
          · simp [statusSeparateReleaseFromForwardPort, hsep2] at hsep
            exact hsep.1.symm
          · simp [statusSeparateReleaseFromForwardPort, hsep2] at hsep
        subst hs2
        exact ⟨by rw [hfields.1]; exact hbase.1, by rw [hfields.2.1]; exact hbase.2.1,
          by rw [hfields.2.2.1]; exact hbase.2.2.1,
          by rw [hfields.2.2.2]; exact hbase.2.2.2⟩
      · simp at h

/-- Environment for the C3 scenario: all git operations succeed; the
development branch index has one chart version, the others are empty. -/
def c3env : GitEnv :=
  ⟨true, fun _ => true, fun _ => true, fun _ => true,
    fun b => if b = "dev-2.9" then some [("chart1", [⟨"1.0.0"⟩])] else some []⟩

/-- Dependencies for the C3 scenario: the release-decision predicate
fails on every version. -/
def c3d : Dependencies :=
  ⟨[], fun _ => true, fun _ => .error "malformed version", fun _ => false,
    "main", "release-2.9", "dev-2.9"⟩

/-- The partial status `getStatus` computes in the C3 scenario before
the release-decision predicate fails: current-branch buckets and the
four comparison buckets populated, the two split buckets never
assigned. -/
def c3partialStatus : Status :=
  ⟨some [], some [], some [], some [], some [("chart1", [⟨"1.0.0"⟩])], some [],
    none, none⟩

/-- C3 counterexample: on this input `getStatus` returns its partial
results (the four comparison buckets, among them a nonempty
not-released-in-lifecycle bucket) alongside the release-decision error,
but the public entry point `CheckLifecycleStatusAndSave` returns a `nil`
status with the error — the partial results are not returned through
it. -/
theorem c3_counterexample :
    getStatus c3d c3env "main" =
      ("main", c3partialStatus, .error "malformed version") ∧
    CheckLifecycleStatusAndSave c3d c3env true true "" "main" =
      ("main", none, .error "malformed version") :=
  ⟨rfl, rfl⟩

/-- Witness for `c3_partial_results_on_error`, instantiating all three
parts on the C3 scenario. -/
theorem c3_partial_results_on_error_witness :
    CheckLifecycleStatusAndSave c3d c3env true true "" "main" =
      ("main", none, .error "malformed version") ∧
    (statusSeparateReleaseFromForwardPort c3d c3partialStatus).1 = c3partialStatus ∧
    c3partialStatus.AssetsInLifecycleCurrentBranch.isSome = true ∧
    c3partialStatus.AssetsToBeReleased = none := by
  have h := c3_partial_results_on_error c3d c3env
  refine ⟨h.1 true true "" "main" "main" c3partialStatus "malformed version" rfl,
    h.2.1 c3partialStatus "malformed version" rfl, ?_, ?_⟩
  · exact (h.2.2 "main" "main" c3partialStatus "malformed version" rfl).1
  · exact (h.2.2 "main" "main" c3partialStatus "malformed version" rfl).2.2.1

end ChartsBuildScripts
